import Mathlib

/-!
Traceroute: configuration check and probe loops.

A shallow embedding of `src/traceroute/traceroute.go`:

* `TraceConfig.check` is the method `(*TraceConfig).check`; the receiver is a
  pointer, so the embedding returns the configuration as the call leaves it
  together with the error, if any.
* `step4` / `step6` are one pass through the body of the `for` loop of `trace4` /
  `trace6`.  What the operating system and the packet parsers hand back in that
  pass is an `Outcome4` / `Outcome6`; a run consumes one outcome per probe sent.
* `loop4` / `loop6` iterate the step over a list of outcomes, `trace4` / `trace6`
  put the guards and the initial loop variables in front.

Go's `int` is taken at its 64-bit width: `ttl++` and `try++` wrap around
(`wrapInt`).  `realRun4` / `realRun6` tell which lists of outcomes the system
calls and the parsers can produce.  `TraceResult.ElapsedTime` is wall-clock time and is left out, the
`Debug` printing has no effect on the state and is left out as well.
-/

namespace Traceroute

/-! ## Constants (traceroute.go, lines 90-97) -/

def DesMinPort : Int := 33434
def DesMaxPort : Int := 33534
def DefaultFirstTTL : Int := 1
def DefaultMaxTTL : Int := 64
def DefaultMinWaitSec : Int := 1
def DefaultMaxWaitSec : Int := 10

/-- Two's complement wrap-around of a 64-bit signed integer. -/
def wrapInt (x : Int) : Int := (x + 2 ^ 63) % 2 ^ 64 - 2 ^ 63

/-! ## Data model -/

/-- TraceResult of the source, without `ElapsedTime`. -/
structure TraceResult where
  TTL : Int
  NextHot : String
  Replied : Bool
deriving DecidableEq, Repr

/-- TraceConfig of the source. -/
structure TraceConfig where
  FirstTTL : Int
  Retry : Int
  MaxTTL : Int
  Debug : Bool
  WaitSec : Int
deriving DecidableEq, Repr

/-- The errors a call can return. -/
inductive TraceError where
  /-- The error `invalid max ttl: %d` of `check` -/
  | invalidMaxTTL (maxTTL : Int)
  /-- The error `invalid addr:%s` -/
  | invalidAddr
  /-- Either `unix.Socket` or `unix.SetsockoptTimeval` failed before the loop -/
  | socket
  /-- Either `unix.SetsockoptInt` or `unix.Sendto` failed inside the loop -/
  | send
  /-- The call of `ipv4.ParseHeader` failed -/
  | header
  /-- The call of `icmp.ParseMessage` failed -/
  | message
deriving DecidableEq, Repr

/-- The method `check`: the configuration after the call and the returned error. -/
def TraceConfig.check (conf : TraceConfig) : TraceConfig × Option TraceError :=
  if conf.MaxTTL ≤ 0 then
    (conf, some (TraceError.invalidMaxTTL conf.MaxTTL))
  else
    let conf := if conf.FirstTTL ≤ 0 then { conf with FirstTTL := DefaultFirstTTL } else conf
    let conf := if conf.MaxTTL > DefaultMaxTTL then { conf with MaxTTL := DefaultMaxTTL } else conf
    let conf :=
      if conf.WaitSec ≤ 0 then { conf with WaitSec := DefaultMinWaitSec }
      else if conf.WaitSec ≥ DefaultMaxWaitSec then { conf with WaitSec := DefaultMaxWaitSec }
      else conf
    (conf, none)

/-- The normalised configuration in the words of the specification (section 4.2):
firstTTL at most 0 is reset to 1, maxTTL above 64 is clamped to 64, waitSeconds at
most 0 is raised to 1 and above 10 lowered to 10; the other fields are kept. -/
def specNormalise (conf : TraceConfig) : TraceConfig :=
  { FirstTTL := if conf.FirstTTL ≤ 0 then 1 else conf.FirstTTL
    Retry := conf.Retry
    MaxTTL := min conf.MaxTTL 64
    Debug := conf.Debug
    WaitSec := if conf.WaitSec ≤ 0 then 1 else if conf.WaitSec > 10 then 10 else conf.WaitSec }

/-! ## The probe loops -/

/-- How `trace4` / `trace6` classify the type of a parsed ICMP message: the two
types they compare against, and every other type. -/
inductive ICMPKind where
  | timeExceeded
  | destinationUnreachable
  | other
deriving DecidableEq, Repr

/-- A `netip.Addr`: a 4-byte or a 16-byte address, the bytes read as a number. -/
inductive Addr where
  | v4 (bytes : Nat)
  | v6 (bytes : Nat)
deriving DecidableEq, Repr

/-- What one pass through the loop body of `trace4` gets back from the system
calls and the parsers. -/
inductive Outcome4 where
  /-- Either `unix.SetsockoptInt` or `unix.Sendto` returned an error -/
  | sendFailed
  /-- The call of `unix.Recvfrom` returned an error (the receive timed out) -/
  | recvFailed
  /-- The call of `ipv4.ParseHeader` returned an error -/
  | headerFailed
  /-- The header parsed and `ipHeader.Len > n` -/
  | headerTooLong
  /-- The call of `icmp.ParseMessage` returned an error -/
  | messageFailed
  /-- The message parsed: its type, and the sender `fromAddr` -/
  | reply (kind : ICMPKind) (fromAddr : Nat)
deriving DecidableEq, Repr

/-- What one pass through the loop body of `trace6` gets back. -/
inductive Outcome6 where
  /-- Either `unix.SetsockoptInt` or `unix.Sendto` returned an error -/
  | sendFailed
  /-- The call of `unix.Recvfrom` returned an error (the receive timed out) -/
  | recvFailed
  /-- The call of `icmp.ParseMessage` returned an error -/
  | messageFailed
  /-- The message parsed: its type, and the sender -/
  | reply (kind : ICMPKind) (fromAddr : Nat)
deriving DecidableEq, Repr

/-- The loop variables `ttl`, `try`, `destPort` and `results`. -/
structure LoopState where
  ttl : Int
  try_ : Int
  destPort : Int
  results : List TraceResult
deriving DecidableEq, Repr

/-- Where a call stands: still in the loop, returned `results, nil`, or
returned `nil, err`. -/
inductive Status where
  | running (s : LoopState)
  | returned (results : List TraceResult)
  | failed (e : TraceError)
deriving DecidableEq, Repr

/-- A call after it has been fed a list of outcomes: where it stands and the
outcomes it has not consumed. -/
structure Run (O : Type) where
  status : Status
  rest : List O

/-- The end of the loop body: `destPort++`, back to `DesMinPort` past `DesMaxPort`. -/
def nextPort (destPort : Int) : Int :=
  let destPort := destPort + 1
  if destPort > DesMaxPort then DesMinPort else destPort

/-- One pass through the body of the `for` loop of `trace4` (lines 162-246).
`str` is `netip.AddrFrom4(fromAddr).String()`. -/
def step4 (str : Nat → String) (conf : TraceConfig) (destAddr : Nat) (s : LoopState) :
    Outcome4 → Status
  | .sendFailed => .failed .send
  | .headerFailed => .failed .header
  | .headerTooLong => .running { s with try_ := 0 }
  | .messageFailed => .failed .message
  | .reply kind fromAddr =>
    if kind = .timeExceeded ∨ kind = .destinationUnreachable then
      let results := s.results ++ [{ TTL := s.ttl, NextHot := str fromAddr, Replied := true }]
      let ttl := if kind = .timeExceeded then wrapInt (s.ttl + 1) else s.ttl
      if kind = .destinationUnreachable ∨ ttl > conf.MaxTTL ∨ fromAddr = destAddr then
        .returned results
      else
        .running { ttl := ttl, try_ := 0, destPort := nextPort s.destPort, results := results }
    else
      .running { s with try_ := 0, destPort := nextPort s.destPort }
  | .recvFailed =>
    let results := s.results ++ [{ TTL := s.ttl, NextHot := "*", Replied := false }]
    let try_ := wrapInt (s.try_ + 1)
    let ttl := if try_ > conf.Retry then wrapInt (s.ttl + 1) else s.ttl
    let try_ := if try_ > conf.Retry then 0 else try_
    if ttl > conf.MaxTTL then
      .returned results
    else
      .running { ttl := ttl, try_ := try_, destPort := nextPort s.destPort, results := results }

/-- One pass through the body of the `for` loop of `trace6` (lines 279-331).
`str` is `netip.AddrFrom16(fromAddr).String()`. -/
def step6 (str : Nat → String) (conf : TraceConfig) (destAddr : Nat) (s : LoopState) :
    Outcome6 → Status
  | .sendFailed => .failed .send
  | .messageFailed => .failed .message
  | .reply kind fromAddr =>
    if kind = .timeExceeded ∨ kind = .destinationUnreachable then
      let results := s.results ++ [{ TTL := s.ttl, NextHot := str fromAddr, Replied := true }]
      let ttl := if kind = .timeExceeded then wrapInt (s.ttl + 1) else s.ttl
      if kind = .destinationUnreachable ∨ ttl > conf.MaxTTL ∨ fromAddr = destAddr then
        .returned results
      else
        .running { ttl := ttl, try_ := 0, destPort := nextPort s.destPort, results := results }
    else
      .running { s with try_ := 0, destPort := nextPort s.destPort }
  | .recvFailed =>
    let results := s.results ++ [{ TTL := s.ttl, NextHot := "*", Replied := false }]
    let try_ := wrapInt (s.try_ + 1)
    let ttl := if try_ > conf.Retry then wrapInt (s.ttl + 1) else s.ttl
    let try_ := if try_ > conf.Retry then 0 else try_
    .running { ttl := ttl, try_ := try_, destPort := nextPort s.destPort, results := results }

/-- The `for` loop of `trace4` run against a list of outcomes, one per pass. With
the list used up the loop is still running, waiting in its next pass. -/
def loop4 (str : Nat → String) (conf : TraceConfig) (destAddr : Nat) :
    LoopState → List Outcome4 → Run Outcome4
  | s, [] => { status := .running s, rest := [] }
  | s, o :: os =>
    match step4 str conf destAddr s o with
    | .running s' => loop4 str conf destAddr s' os
    | .returned results => { status := .returned results, rest := os }
    | .failed e => { status := .failed e, rest := os }

/-- The `for` loop of `trace6` run against a list of outcomes. -/
def loop6 (str : Nat → String) (conf : TraceConfig) (destAddr : Nat) :
    LoopState → List Outcome6 → Run Outcome6
  | s, [] => { status := .running s, rest := [] }
  | s, o :: os =>
    match step6 str conf destAddr s o with
    | .running s' => loop6 str conf destAddr s' os
    | .returned results => { status := .returned results, rest := os }
    | .failed e => { status := .failed e, rest := os }

/-- The loop variables as both procedures set them before the loop:
`ttl := conf.FirstTTL`, `try := conf.Retry`, `destPort := DesMinPort`, no results. -/
def initState (conf : TraceConfig) : LoopState :=
  { ttl := conf.FirstTTL, try_ := conf.Retry, destPort := DesMinPort, results := [] }

/-- The procedure `trace4` (lines 122-247). `sockets` tells whether the two
sockets were created and the receive timeout set. -/
def trace4 (str : Nat → String) (conf : TraceConfig) (addr : Addr) (sockets : Bool)
    (os : List Outcome4) : Run Outcome4 :=
  match addr with
  | .v6 _ => { status := .failed .invalidAddr, rest := os }
  | .v4 destAddr =>
    match conf.check with
    | (_, some e) => { status := .failed e, rest := os }
    | (conf, none) =>
      if sockets then loop4 str conf destAddr (initState conf) os
      else { status := .failed .socket, rest := os }

/-- The procedure `trace6` (lines 249-332). -/
def trace6 (str : Nat → String) (conf : TraceConfig) (addr : Addr) (sockets : Bool)
    (os : List Outcome6) : Run Outcome6 :=
  match addr with
  | .v4 _ => { status := .failed .invalidAddr, rest := os }
  | .v6 destAddr =>
    match conf.check with
    | (_, some e) => { status := .failed e, rest := os }
    | (conf, none) =>
      if sockets then loop6 str conf destAddr (initState conf) os
      else { status := .failed .socket, rest := os }

/-- The TTLs of a result, in order. -/
def ttls (results : List TraceResult) : List Int := results.map TraceResult.TTL

/-- Every entry of the list repeats the entry before it or is one greater,
the entry before the first one being `a`. -/
def TTLsFollow : Int → List Int → Prop
  | _, [] => True
  | a, b :: l => (b = a ∨ b = a + 1) ∧ TTLsFollow b l

/-- A TTL sequence that starts at `first` and whose every later entry repeats
the entry before it or is one greater. -/
def TTLsAscend (first : Int) : List Int → Prop
  | [] => True
  | t :: ts => t = first ∧ TTLsFollow t ts

instance TTLsFollow.decidable : (a : Int) → (l : List Int) → Decidable (TTLsFollow a l)
  | _, [] => isTrue trivial
  | a, b :: l =>
    have := TTLsFollow.decidable b l
    inferInstanceAs (Decidable ((b = a ∨ b = a + 1) ∧ TTLsFollow b l))

instance TTLsAscend.decidable (first : Int) : (l : List Int) → Decidable (TTLsAscend first l)
  | [] => isTrue trivial
  | t :: ts => inferInstanceAs (Decidable (t = first ∧ TTLsFollow t ts))

/-! ## What the system calls and the parsers can hand back

The loops above take any list of outcomes. Three facts about the code outside the
repository cut that down to the runs the program can make:

* `unix.SetsockoptInt(fd, level, opt, value)` passes `int32(value)` to the kernel;
* the option `IP_TTL` is refused unless that value is -1 or lies in 1..255, the
  option `IPV6_UNICAST_HOPS` unless it lies in -1..255 (Linux);
* `ipv4.ParseHeader` returns an error whenever the buffer is shorter than the
  header length it reads, so after a nil error `ipHeader.Len ≤ n`.
-/

/-- The conversion `int32(value)` of a Go `int`: the low 32 bits, signed. -/
def toInt32 (x : Int) : Int := (x + 2 ^ 31) % 2 ^ 32 - 2 ^ 31

/-- Whether `unix.SetsockoptInt(sendSocket, unix.IPPROTO_IP, unix.IP_TTL, ttl)`
succeeds. -/
def ipTTLAccepts (ttl : Int) : Bool :=
  decide (toInt32 ttl = -1 ∨ (1 ≤ toInt32 ttl ∧ toInt32 ttl ≤ 255))

/-- Whether `unix.SetsockoptInt(sendSocket, unix.IPPROTO_IPV6,
unix.IPV6_UNICAST_HOPS, ttl)` succeeds. -/
def hopLimitAccepts (ttl : Int) : Bool :=
  decide (-1 ≤ toInt32 ttl ∧ toInt32 ttl ≤ 255)

/-- Whether a pass of `trace4` that starts with the loop variables `s` can get the
outcome back: a send error is always possible, a header longer than the packet
never, and everything else needs the TTL to have been accepted. -/
def Outcome4.possible (s : LoopState) : Outcome4 → Bool
  | .sendFailed => true
  | .headerTooLong => false
  | _ => ipTTLAccepts s.ttl

/-- Whether a pass of `trace6` that starts with the loop variables `s` can get the
outcome back. -/
def Outcome6.possible (s : LoopState) : Outcome6 → Bool
  | .sendFailed => true
  | _ => hopLimitAccepts s.ttl

/-- Whether the loop of `trace4`, started with `s`, can be handed the outcomes in
this order: each outcome it consumes is possible in the pass that consumes it. -/
def realRun4 (str : Nat → String) (conf : TraceConfig) (destAddr : Nat) :
    LoopState → List Outcome4 → Bool
  | _, [] => true
  | s, o :: os =>
    o.possible s &&
      match step4 str conf destAddr s o with
      | .running s' => realRun4 str conf destAddr s' os
      | _ => true

/-- Whether the loop of `trace6`, started with `s`, can be handed the outcomes in
this order. -/
def realRun6 (str : Nat → String) (conf : TraceConfig) (destAddr : Nat) :
    LoopState → List Outcome6 → Bool
  | _, [] => true
  | s, o :: os =>
    o.possible s &&
      match step6 str conf destAddr s o with
      | .running s' => realRun6 str conf destAddr s' os
      | _ => true

/-! ## Configuration check: theorems -/

theorem check_eq_of_pos (c : TraceConfig) (h : 0 < c.MaxTTL) :
    c.check =
      ({ FirstTTL := if c.FirstTTL ≤ 0 then 1 else c.FirstTTL
         Retry := c.Retry
         MaxTTL := if c.MaxTTL > 64 then 64 else c.MaxTTL
         Debug := c.Debug
         WaitSec := if c.WaitSec ≤ 0 then 1 else if c.WaitSec ≥ 10 then 10 else c.WaitSec },
       none) := by
  have h0 : ¬ c.MaxTTL ≤ 0 := not_le.mpr h
  unfold TraceConfig.check
  simp only [h0, if_false, DefaultFirstTTL, DefaultMaxTTL, DefaultMinWaitSec, DefaultMaxWaitSec]
  split_ifs <;> rfl

theorem check_eq_of_nonpos (c : TraceConfig) (h : c.MaxTTL ≤ 0) :
    c.check = (c, some (TraceError.invalidMaxTTL c.MaxTTL)) := by
  unfold TraceConfig.check
  simp [h]

/-- C1 (counterexample): `check` accepts FirstTTL = 100 with MaxTTL = 30 and
leaves both as they are, so the checked configuration has FirstTTL > MaxTTL. -/
theorem check_first_above_max :
    (TraceConfig.check ⟨100, 0, 30, false, 1⟩).2 = none ∧
      (TraceConfig.check ⟨100, 0, 30, false, 1⟩).1.MaxTTL <
        (TraceConfig.check ⟨100, 0, 30, false, 1⟩).1.FirstTTL := by
  decide

theorem check_ok_bounds (c c' : TraceConfig) (h : c.check = (c', none)) :
    1 ≤ c'.FirstTTL ∧ (1 ≤ c'.MaxTTL ∧ c'.MaxTTL ≤ 64) ∧ (1 ≤ c'.WaitSec ∧ c'.WaitSec ≤ 10) ∧
      (c'.FirstTTL ≤ c'.MaxTTL ↔ c.FirstTTL ≤ min c.MaxTTL 64) := by
  by_cases hm : c.MaxTTL ≤ 0
  · rw [check_eq_of_nonpos c hm] at h
    simp at h
  · rw [check_eq_of_pos c (not_le.mp hm)] at h
    have hc : c' = _ := (congrArg Prod.fst h).symm
    subst hc
    simp only [le_min_iff]
    split_ifs <;> omega

/-- C1 (amended): when `check` succeeds the resulting configuration has
1 ≤ FirstTTL, 1 ≤ MaxTTL ≤ 64 and 1 ≤ WaitSec ≤ 10, and FirstTTL ≤ MaxTTL holds
exactly when the FirstTTL passed in is at most min(MaxTTL, 64) of the configuration
passed in. -/
theorem check_bounds (c c' : TraceConfig) (h : c.check = (c', none)) :
    1 ≤ c'.FirstTTL ∧ (1 ≤ c'.MaxTTL ∧ c'.MaxTTL ≤ 64) ∧ (1 ≤ c'.WaitSec ∧ c'.WaitSec ≤ 10) ∧
      (c'.FirstTTL ≤ c'.MaxTTL ↔ c.FirstTTL ≤ min c.MaxTTL 64) :=
  check_ok_bounds c c' h

/-- C1 (witness): FirstTTL = 0, MaxTTL = 100, WaitSec = 50 is checked into
FirstTTL = 1, MaxTTL = 64, WaitSec = 10. -/
theorem check_bounds_witness :
    TraceConfig.check ⟨0, 0, 100, false, 50⟩ = (⟨1, 0, 64, false, 10⟩, none) ∧
      (1 ≤ (1 : Int) ∧ (1 ≤ (64 : Int) ∧ (64 : Int) ≤ 64) ∧ (1 ≤ (10 : Int) ∧ (10 : Int) ≤ 10) ∧
        ((1 : Int) ≤ 64 ↔ (0 : Int) ≤ min 100 64)) :=
  ⟨by decide, check_bounds ⟨0, 0, 100, false, 50⟩ ⟨1, 0, 64, false, 10⟩ (by decide)⟩

/-- C2: for a configuration with MaxTTL > 0, `check` returns no error and leaves
exactly the normalised configuration of the specification: FirstTTL ≤ 0 becomes 1,
MaxTTL becomes min(MaxTTL, 64), WaitSec ≤ 0 becomes 1 and WaitSec > 10 becomes 10,
Retry and Debug stay. -/
theorem check_normalises (c : TraceConfig) (h : 0 < c.MaxTTL) :
    c.check = (specNormalise c, none) := by
  rw [check_eq_of_pos c h]
  unfold specNormalise
  have hmin : min c.MaxTTL 64 = if c.MaxTTL > 64 then 64 else c.MaxTTL := by
    split_ifs <;> omega
  have hw : (if c.WaitSec ≤ 0 then (1 : Int) else if c.WaitSec > 10 then 10 else c.WaitSec) =
      if c.WaitSec ≤ 0 then 1 else if c.WaitSec ≥ 10 then 10 else c.WaitSec := by
    split_ifs <;> omega
  rw [hmin, hw]

theorem check_normalises_witness :
    TraceConfig.check ⟨0, 0, 100, false, 0⟩ = (⟨1, 0, 64, false, 1⟩, none) :=
  check_normalises ⟨0, 0, 100, false, 0⟩ (by decide)

theorem check_pos_eq_specNormalise (c : TraceConfig) (h : 0 < c.MaxTTL) :
    c.check = (specNormalise c, none) := by
  rw [check_eq_of_pos c h]
  unfold specNormalise
  have hmin : min c.MaxTTL 64 = if c.MaxTTL > 64 then 64 else c.MaxTTL := by
    split_ifs <;> omega
  have hw : (if c.WaitSec ≤ 0 then (1 : Int) else if c.WaitSec > 10 then 10 else c.WaitSec) =
      if c.WaitSec ≤ 0 then 1 else if c.WaitSec ≥ 10 then 10 else c.WaitSec := by
    split_ifs <;> omega
  rw [hmin, hw]

/-- C3: `check` returns an error exactly when MaxTTL ≤ 0, so no value of FirstTTL
or WaitSec, and no MaxTTL above 64, is rejected. When it returns an error the
configuration is left as it was; when it returns none the configuration is the
normalised one of the specification: FirstTTL ≤ 0 reset to 1, MaxTTL above 64
clamped to 64, WaitSec ≤ 0 raised to 1 and WaitSec above 10 lowered to 10. -/
theorem check_error_iff (c : TraceConfig) :
    (c.check.2 ≠ none ↔ c.MaxTTL ≤ 0) ∧ (c.check.2 ≠ none → c.check.1 = c) ∧
      (c.check.2 = none → c.check.1 = specNormalise c) := by
  by_cases hm : c.MaxTTL ≤ 0
  · rw [check_eq_of_nonpos c hm]
    simp [hm]
  · rw [check_pos_eq_specNormalise c (not_le.mp hm)]
    simp [hm]

/-- C3 (witness): with MaxTTL = 0 the call fails and leaves FirstTTL = -5 and
WaitSec = 99 as they are; with MaxTTL = 200 the same out-of-range fields are
accepted and come out as FirstTTL = 1, MaxTTL = 64, WaitSec = 10. -/
theorem check_error_iff_witness :
    ((TraceConfig.check ⟨-5, 0, 0, true, 99⟩).2 ≠ none ∧
      (TraceConfig.check ⟨-5, 0, 0, true, 99⟩).1 = ⟨-5, 0, 0, true, 99⟩) ∧
    ((TraceConfig.check ⟨-5, 0, 200, true, 99⟩).2 = none ∧
      (TraceConfig.check ⟨-5, 0, 200, true, 99⟩).1 = ⟨1, 0, 64, true, 10⟩) :=
  ⟨⟨by decide, (check_error_iff ⟨-5, 0, 0, true, 99⟩).2.1 (by decide)⟩,
    ⟨by decide, ((check_error_iff ⟨-5, 0, 200, true, 99⟩).2.2 (by decide)).trans (by decide)⟩⟩

/-! ## Arithmetic of `int` -/

theorem wrapInt_eq (x : Int) (h1 : -9223372036854775808 ≤ x) (h2 : x < 9223372036854775808) :
    wrapInt x = x := by
  unfold wrapInt
  norm_num
  omega

/-! ## The loops: general facts -/

theorem loop4_cons_running (str : Nat → String) (c : TraceConfig) (d : Nat) (s s' : LoopState)
    (o : Outcome4) (os : List Outcome4) (h : step4 str c d s o = .running s') :
    loop4 str c d s (o :: os) = loop4 str c d s' os := by
  rw [loop4, h]

theorem loop4_cons_returned (str : Nat → String) (c : TraceConfig) (d : Nat) (s : LoopState)
    (rs : List TraceResult) (o : Outcome4) (os : List Outcome4)
    (h : step4 str c d s o = .returned rs) :
    loop4 str c d s (o :: os) = { status := .returned rs, rest := os } := by
  rw [loop4, h]

theorem loop4_append (str : Nat → String) (c : TraceConfig) (d : Nat) (pre os : List Outcome4) :
    ∀ s s', (loop4 str c d s pre).status = .running s' →
      loop4 str c d s (pre ++ os) = loop4 str c d s' os := by
  induction pre with
  | nil =>
    intro s s' h
    simp only [loop4, Status.running.injEq] at h
    simp [h]
  | cons o pre ih =>
    intro s s' h
    simp only [loop4, List.cons_append] at h ⊢
    cases hs : step4 str c d s o with
    | running s1 =>
      rw [hs] at h
      exact ih s1 s' h
    | returned rs => rw [hs] at h; simp at h
    | failed e => rw [hs] at h; simp at h

theorem loop6_append (str : Nat → String) (c : TraceConfig) (d : Nat) (pre os : List Outcome6) :
    ∀ s s', (loop6 str c d s pre).status = .running s' →
      loop6 str c d s (pre ++ os) = loop6 str c d s' os := by
  induction pre with
  | nil =>
    intro s s' h
    simp only [loop6, Status.running.injEq] at h
    simp [h]
  | cons o pre ih =>
    intro s s' h
    simp only [loop6, List.cons_append] at h ⊢
    cases hs : step6 str c d s o with
    | running s1 =>
      rw [hs] at h
      exact ih s1 s' h
    | returned rs => rw [hs] at h; simp at h
    | failed e => rw [hs] at h; simp at h

/-- A call of `trace4` that is in its loop passed the guards: the address is
4-byte, `check` returned no error, the sockets exist; the loop started from the
initial loop variables of the checked configuration. -/
theorem trace4_running (str : Nat → String) (c : TraceConfig) (d : Nat) (b : Bool)
    (os : List Outcome4) (s : LoopState) (h : (trace4 str c (.v4 d) b os).status = .running s) :
    c.check.2 = none ∧ b = true ∧
      ∀ os', trace4 str c (.v4 d) b os' = loop4 str c.check.1 d (initState c.check.1) os' := by
  unfold trace4 at h
  rcases hk : c.check with ⟨c', e⟩
  rw [hk] at h
  cases e with
  | some e => simp at h
  | none =>
    cases b with
    | false => simp at h
    | true =>
      refine ⟨rfl, rfl, fun os' => ?_⟩
      simp [trace4, hk]

theorem trace6_running (str : Nat → String) (c : TraceConfig) (d : Nat) (b : Bool)
    (os : List Outcome6) (s : LoopState) (h : (trace6 str c (.v6 d) b os).status = .running s) :
    c.check.2 = none ∧ b = true ∧
      ∀ os', trace6 str c (.v6 d) b os' = loop6 str c.check.1 d (initState c.check.1) os' := by
  unfold trace6 at h
  rcases hk : c.check with ⟨c', e⟩
  rw [hk] at h
  cases e with
  | some e => simp at h
  | none =>
    cases b with
    | false => simp at h
    | true =>
      refine ⟨rfl, rfl, fun os' => ?_⟩
      simp [trace6, hk]

theorem trace4_append (str : Nat → String) (c : TraceConfig) (d : Nat) (b : Bool)
    (pre os : List Outcome4) (s : LoopState)
    (h : (trace4 str c (.v4 d) b pre).status = .running s) :
    trace4 str c (.v4 d) b (pre ++ os) = loop4 str c.check.1 d s os := by
  obtain ⟨_, _, ht⟩ := trace4_running str c d b pre s h
  rw [ht] at h
  rw [ht, loop4_append str _ d pre os _ s h]

theorem trace6_append (str : Nat → String) (c : TraceConfig) (d : Nat) (b : Bool)
    (pre os : List Outcome6) (s : LoopState)
    (h : (trace6 str c (.v6 d) b pre).status = .running s) :
    trace6 str c (.v6 d) b (pre ++ os) = loop6 str c.check.1 d s os := by
  obtain ⟨_, _, ht⟩ := trace6_running str c d b pre s h
  rw [ht] at h
  rw [ht, loop6_append str _ d pre os _ s h]

/-! ## Destination unreachable ends the trace -/

theorem step4_unreachable (str : Nat → String) (c : TraceConfig) (d : Nat) (s : LoopState)
    (a : Nat) :
    step4 str c d s (.reply .destinationUnreachable a) =
      .returned (s.results ++ [{ TTL := s.ttl, NextHot := str a, Replied := true }]) := by
  simp [step4]

theorem step6_unreachable (str : Nat → String) (c : TraceConfig) (d : Nat) (s : LoopState)
    (a : Nat) :
    step6 str c d s (.reply .destinationUnreachable a) =
      .returned (s.results ++ [{ TTL := s.ttl, NextHot := str a, Replied := true }]) := by
  simp [step6]

/-- C7: whatever was received before, when a call of `trace4` or `trace6` that is
in its loop with loop variables `s` receives a destination-unreachable reply from
`a`, it returns the results so far followed by one record with Replied = true,
the sender `a` and the TTL of `s` (the TTL is not advanced), and it consumes none
of the outcomes `os` that come after. -/
theorem unreachable_returns (str : Nat → String) (c : TraceConfig) (d a : Nat) (s : LoopState) :
    (∀ (pre os : List Outcome4), (trace4 str c (.v4 d) true pre).status = .running s →
      trace4 str c (.v4 d) true (pre ++ .reply .destinationUnreachable a :: os) =
        { status := .returned
            (s.results ++ [{ TTL := s.ttl, NextHot := str a, Replied := true }]),
          rest := os }) ∧
    (∀ (pre os : List Outcome6), (trace6 str c (.v6 d) true pre).status = .running s →
      trace6 str c (.v6 d) true (pre ++ .reply .destinationUnreachable a :: os) =
        { status := .returned
            (s.results ++ [{ TTL := s.ttl, NextHot := str a, Replied := true }]),
          rest := os }) := by
  constructor
  · intro pre os h
    rw [trace4_append str c d true pre _ s h]
    simp [loop4, step4_unreachable]
  · intro pre os h
    rw [trace6_append str c d true pre _ s h]
    simp [loop6, step6_unreachable]

theorem unreachable_returns_witness :
    trace4 (fun _ => "r") ⟨1, 0, 30, false, 1⟩ (.v4 9) true
        ([.reply .timeExceeded 5, .recvFailed] ++
          .reply .destinationUnreachable 9 :: [.recvFailed, .reply .timeExceeded 7]) =
      { status := .returned
          ([⟨1, "r", true⟩, ⟨2, "*", false⟩] ++ [{ TTL := 3, NextHot := "r", Replied := true }]),
        rest := [.recvFailed, .reply .timeExceeded 7] } :=
  (unreachable_returns (fun _ => "r") ⟨1, 0, 30, false, 1⟩ 9 9
    ⟨3, 0, 33436, [⟨1, "r", true⟩, ⟨2, "*", false⟩]⟩).1
    [.reply .timeExceeded 5, .recvFailed] [.recvFailed, .reply .timeExceeded 7] (by decide)

/-! ## Timeouts only -/

/-- One timeout in `trace4`, spelled out, while `try + 1` and `ttl + 1` are
representable. -/
theorem step4_timeout (str : Nat → String) (c : TraceConfig) (d : Nat) (s : LoopState)
    (h1 : 0 ≤ s.try_) (h2 : s.try_ ≤ c.Retry) (h3 : c.Retry < 9223372036854775807)
    (h4 : 1 ≤ s.ttl) (h5 : s.ttl ≤ c.MaxTTL) (h6 : c.MaxTTL ≤ 64) :
    step4 str c d s .recvFailed =
      if s.try_ = c.Retry then
        if s.ttl = c.MaxTTL then
          .returned (s.results ++ [{ TTL := s.ttl, NextHot := "*", Replied := false }])
        else
          .running { ttl := s.ttl + 1, try_ := 0, destPort := nextPort s.destPort,
                     results := s.results ++ [{ TTL := s.ttl, NextHot := "*", Replied := false }] }
      else
        .running { ttl := s.ttl, try_ := s.try_ + 1, destPort := nextPort s.destPort,
                   results := s.results ++ [{ TTL := s.ttl, NextHot := "*", Replied := false }] } := by
  have hw1 : wrapInt (s.try_ + 1) = s.try_ + 1 := wrapInt_eq _ (by omega) (by omega)
  have hw2 : wrapInt (s.ttl + 1) = s.ttl + 1 := wrapInt_eq _ (by omega) (by omega)
  simp only [step4, hw1, hw2]
  split_ifs <;> first | rfl | omega

theorem loop4_timeouts (str : Nat → String) (c : TraceConfig) (d : Nat) (os : List Outcome4)
    (h3 : c.Retry < 9223372036854775807) (h6 : c.MaxTTL ≤ 64) (n : Nat) :
    ∀ s : LoopState, 0 ≤ s.try_ → s.try_ ≤ c.Retry → 1 ≤ s.ttl → s.ttl ≤ c.MaxTTL →
      ((n : Int) + 1 = (c.Retry - s.try_) + 1 + (c.MaxTTL - s.ttl) * (c.Retry + 1)) →
      ∃ new, loop4 str c d s (List.replicate (n + 1) .recvFailed ++ os) =
          { status := .returned (s.results ++ new), rest := os } ∧
        new.length = n + 1 ∧ ∀ r ∈ new, r.Replied = false := by
  induction n with
  | zero =>
    intro s h1 h2 h4 h5 hn
    have hp : 0 ≤ (c.MaxTTL - s.ttl) * (c.Retry + 1) :=
      mul_nonneg (by omega) (by omega)
    have ht : s.try_ = c.Retry := by push_cast at hn; omega
    have hz : (c.MaxTTL - s.ttl) * (c.Retry + 1) = 0 := by push_cast at hn; omega
    have hm : s.ttl = c.MaxTTL := by
      rcases mul_eq_zero.mp hz with h | h <;> omega
    refine ⟨[{ TTL := s.ttl, NextHot := "*", Replied := false }], ?_, rfl, by simp⟩
    rw [List.replicate_succ, List.replicate_zero, List.cons_append, List.nil_append]
    apply loop4_cons_returned
    rw [step4_timeout str c d s h1 h2 h3 h4 h5 h6, if_pos ht, if_pos hm]
  | succ n ih =>
    intro s h1 h2 h4 h5 hn
    have hp : 0 ≤ (c.MaxTTL - s.ttl) * (c.Retry + 1) :=
      mul_nonneg (by omega) (by omega)
    rw [List.replicate_succ, List.cons_append]
    have hstep := step4_timeout str c d s h1 h2 h3 h4 h5 h6
    by_cases ht : s.try_ = c.Retry
    · have hne : s.ttl ≠ c.MaxTTL := by
        intro hm
        rw [ht, hm] at hn
        push_cast at hn
        simp at hn
        omega
      rw [if_pos ht, if_neg hne] at hstep
      rw [loop4_cons_running str c d s _ _ _ hstep]
      have hr : (c.MaxTTL - (s.ttl + 1)) * (c.Retry + 1) =
          (c.MaxTTL - s.ttl) * (c.Retry + 1) - (c.Retry + 1) := by ring
      obtain ⟨new, e1, e2, e3⟩ := ih
        { ttl := s.ttl + 1, try_ := 0, destPort := nextPort s.destPort,
          results := s.results ++ [{ TTL := s.ttl, NextHot := "*", Replied := false }] }
        (le_refl _) (by simp only; omega) (by simp only; omega) (by simp only; omega)
        (by simp only; rw [hr]; push_cast at hn; omega)
      refine ⟨{ TTL := s.ttl, NextHot := "*", Replied := false } :: new, ?_, by simp [e2], ?_⟩
      · rw [e1]; simp
      · intro r hr'
        rcases List.mem_cons.mp hr' with h | h
        · rw [h]
        · exact e3 r h
    · rw [if_neg ht] at hstep
      rw [loop4_cons_running str c d s _ _ _ hstep]
      obtain ⟨new, e1, e2, e3⟩ := ih
        { ttl := s.ttl, try_ := s.try_ + 1, destPort := nextPort s.destPort,
          results := s.results ++ [{ TTL := s.ttl, NextHot := "*", Replied := false }] }
        (by simp only; omega) (by simp only; omega) h4 h5
        (by simp only; push_cast at hn; omega)
      refine ⟨{ TTL := s.ttl, NextHot := "*", Replied := false } :: new, ?_, by simp [e2], ?_⟩
      · rw [e1]; simp
      · intro r hr'
        rcases List.mem_cons.mp hr' with h | h
        · rw [h]
        · exact e3 r h

/-- C4 (what the code does): for a configuration that passes `check`, with
0 ≤ Retry < 2^63 - 1 and FirstTTL ≤ MaxTTL after the check, when every receive
times out `trace4` returns after exactly 1 + (MaxTTL - FirstTTL) * (Retry + 1)
probes, with that many records, all with Replied = false, and consumes nothing
after them. This is Retry records fewer than (MaxTTL - FirstTTL + 1) * (Retry + 1):
the first TTL is probed once. -/
theorem trace4_timeouts_count (str : Nat → String) (c c' : TraceConfig) (d : Nat)
    (os : List Outcome4) (n : Nat) (hc : c.check = (c', none)) (h0 : 0 ≤ c'.Retry)
    (h1 : c'.Retry < 9223372036854775807) (h2 : c'.FirstTTL ≤ c'.MaxTTL)
    (hn : (n : Int) = 1 + (c'.MaxTTL - c'.FirstTTL) * (c'.Retry + 1)) :
    ∃ rs, trace4 str c (.v4 d) true (List.replicate n .recvFailed ++ os) =
        { status := .returned rs, rest := os } ∧
      rs.length = n ∧ ∀ r ∈ rs, r.Replied = false := by
  obtain ⟨hf, ⟨_, hm⟩, _⟩ := check_ok_bounds c c' hc
  have hp : 0 ≤ (c'.MaxTTL - c'.FirstTTL) * (c'.Retry + 1) := mul_nonneg (by omega) (by omega)
  obtain ⟨m, rfl⟩ : ∃ m, n = m + 1 := ⟨n - 1, by omega⟩
  obtain ⟨new, e1, e2, e3⟩ := loop4_timeouts str c' d os h1 hm m (initState c') h0 (le_refl _) hf h2
    (by simp only [initState]; push_cast at hn; omega)
  refine ⟨new, ?_, e2, e3⟩
  simp only [trace4, hc, if_true]
  rw [e1]
  simp [initState]

/-- C4 (the failing input): FirstTTL = 1, MaxTTL = 2, Retry = 1 and every receive
timing out. `trace4` returns after 1 + (2 - 1) * (1 + 1) = 3 probes and leaves the
fourth timeout unconsumed, where (2 - 1 + 1) * (1 + 1) = 4 records are claimed. -/
theorem trace4_timeouts_count_witness :
    ∃ rs, trace4 (fun _ => "r") ⟨1, 1, 2, false, 1⟩ (.v4 9) true
        (List.replicate 3 .recvFailed ++ [.recvFailed]) =
        { status := .returned rs, rest := [.recvFailed] } ∧
      rs.length = 3 ∧ ∀ r ∈ rs, r.Replied = false :=
  trace4_timeouts_count (fun _ => "r") ⟨1, 1, 2, false, 1⟩ ⟨1, 1, 2, false, 1⟩ 9 [.recvFailed] 3
    (by decide) (by decide) (by decide) (by decide) (by decide)

/-- The records of the run at the failing input of C4: the TTLs are 1, 2, 2, so
TTL 1 is probed once and TTL 2 twice. -/
theorem trace4_timeouts_first_ttl_once :
    (trace4 (fun _ => "r") ⟨1, 1, 2, false, 1⟩ (.v4 9) true
        (List.replicate 4 .recvFailed)).status =
      .returned [⟨1, "*", false⟩, ⟨2, "*", false⟩, ⟨2, "*", false⟩] ∧
    (trace4 (fun _ => "r") ⟨1, 1, 2, false, 1⟩ (.v4 9) true
        (List.replicate 4 .recvFailed)).rest = [.recvFailed] := by
  decide

theorem loop6_timeouts (str : Nat → String) (c : TraceConfig) (d : Nat) (k : Nat) :
    ∀ s, ∃ s', loop6 str c d s (List.replicate k .recvFailed) =
      { status := .running s', rest := [] } ∧ s'.results.length = s.results.length + k := by
  induction k with
  | zero => intro s; exact ⟨s, rfl, rfl⟩
  | succ k ih =>
    intro s
    simp only [List.replicate_succ, loop6, step6]
    obtain ⟨s', h1, h2⟩ := ih
      { ttl := if wrapInt (s.try_ + 1) > c.Retry then wrapInt (s.ttl + 1) else s.ttl
        try_ := if wrapInt (s.try_ + 1) > c.Retry then 0 else wrapInt (s.try_ + 1)
        destPort := nextPort s.destPort
        results := s.results ++ [{ TTL := s.ttl, NextHot := "*", Replied := false }] }
    refine ⟨s', h1, ?_⟩
    rw [h2]
    simp
    omega

/-- C9 (what the code does): for a configuration that passes `check`, after any
number `k` of receives that all timed out `trace6` has not returned: it is still in
its loop, has consumed all `k` outcomes and holds `k` records. -/
theorem trace6_timeouts_never_return (str : Nat → String) (c : TraceConfig) (d : Nat) (k : Nat)
    (h : c.check.2 = none) :
    ∃ s, trace6 str c (.v6 d) true (List.replicate k .recvFailed) =
      { status := .running s, rest := [] } ∧ s.results.length = k := by
  obtain ⟨s', h1, h2⟩ := loop6_timeouts str c.check.1 d k (initState c.check.1)
  refine ⟨s', ?_, by simpa [initState] using h2⟩
  rw [← h1]
  unfold trace6
  rcases hk : c.check with ⟨c', e⟩
  rw [hk] at h
  simp only at h
  subst h
  simp

theorem trace6_timeouts_never_return_witness :
    ∃ s, trace6 (fun _ => "r") ⟨1, 0, 1, false, 1⟩ (.v6 9) true (List.replicate 3 .recvFailed) =
      { status := .running s, rest := [] } ∧ s.results.length = 3 :=
  trace6_timeouts_never_return (fun _ => "r") ⟨1, 0, 1, false, 1⟩ 9 3 (by decide)

/-! ## Replies of another type -/

/-- C10 (counterexample): with Retry = 1 the loop of `trace4` and of `trace6`
starts with the retry counter at 1; a reply of another type sets it to 0. After
it two timeouts are spent on TTL 1, where without it the second timeout is
already spent on TTL 2. -/
theorem other_reply_resets_try :
    (trace4 (fun _ => "r") ⟨1, 1, 5, false, 1⟩ (.v4 9) true []).status =
      .running ⟨1, 1, 33434, []⟩ ∧
    (trace4 (fun _ => "r") ⟨1, 1, 5, false, 1⟩ (.v4 9) true [.reply .other 7]).status =
      .running ⟨1, 0, 33435, []⟩ ∧
    (trace6 (fun _ => "r") ⟨1, 1, 5, false, 1⟩ (.v6 9) true [.reply .other 7]).status =
      .running ⟨1, 0, 33435, []⟩ ∧
    (trace4 (fun _ => "r") ⟨1, 1, 5, false, 1⟩ (.v4 9) true
        [.recvFailed, .recvFailed]).status =
      .running ⟨2, 1, 33436, [⟨1, "*", false⟩, ⟨2, "*", false⟩]⟩ ∧
    (trace4 (fun _ => "r") ⟨1, 1, 5, false, 1⟩ (.v4 9) true
        [.reply .other 7, .recvFailed, .recvFailed]).status =
      .running ⟨2, 0, 33437, [⟨1, "*", false⟩, ⟨1, "*", false⟩]⟩ := by
  decide

/-- C10 (amended): in every loop state of `trace4` and of `trace6`, a parsed
reply whose type is neither time-exceeded nor destination-unreachable keeps the
loop running, appends no record and leaves the TTL as it is; it sets the retry
counter to 0 and moves the port on. -/
theorem other_reply_step (str : Nat → String) (c : TraceConfig) (d : Nat) (s : LoopState)
    (a : Nat) :
    step4 str c d s (.reply .other a) =
      .running { ttl := s.ttl, try_ := 0, destPort := nextPort s.destPort,
                 results := s.results } ∧
    step6 str c d s (.reply .other a) =
      .running { ttl := s.ttl, try_ := 0, destPort := nextPort s.destPort,
                 results := s.results } := by
  simp [step4, step6]

/-! ## Port rotation -/

theorem nextPort_eq (p : Int) (h1 : 33434 ≤ p) (h2 : p ≤ 33534) :
    nextPort p = if p = 33534 then 33434 else p + 1 := by
  unfold nextPort DesMaxPort DesMinPort
  simp only
  split_ifs <;> omega

theorem nextPort_iterate (k : Nat) :
    ∀ p : Int, 33434 ≤ p → p ≤ 33534 → nextPort^[k] p = 33434 + (p - 33434 + k) % 101 := by
  induction k with
  | zero => intro p h1 h2; simp only [Function.iterate_zero, id]; omega
  | succ k ih =>
    intro p h1 h2
    rw [Function.iterate_succ_apply, ih (nextPort p) (by rw [nextPort_eq p h1 h2]; split_ifs <;> omega)
      (by rw [nextPort_eq p h1 h2]; split_ifs <;> omega), nextPort_eq p h1 h2]
    split_ifs <;> push_cast <;> omega

theorem step4_port (str : Nat → String) (c : TraceConfig) (d : Nat) (s s' : LoopState)
    (o : Outcome4) (h : step4 str c d s o = .running s') :
    (o = .headerTooLong ∧ s'.destPort = s.destPort) ∨
      (o ≠ .headerTooLong ∧ s'.destPort = nextPort s.destPort) := by
  cases o with
  | sendFailed => simp [step4] at h
  | headerFailed => simp [step4] at h
  | messageFailed => simp [step4] at h
  | headerTooLong =>
    simp only [step4, Status.running.injEq] at h
    subst h
    exact Or.inl ⟨rfl, rfl⟩
  | reply kind a =>
    right
    refine ⟨by simp, ?_⟩
    simp only [step4] at h
    split_ifs at h <;> simp only [Status.running.injEq] at h <;> subst h <;> rfl
  | recvFailed =>
    right
    refine ⟨by simp, ?_⟩
    simp only [step4] at h
    split_ifs at h <;> simp only [Status.running.injEq] at h <;> subst h <;> rfl

theorem step6_port (str : Nat → String) (c : TraceConfig) (d : Nat) (s s' : LoopState)
    (o : Outcome6) (h : step6 str c d s o = .running s') :
    s'.destPort = nextPort s.destPort := by
  cases o with
  | sendFailed => simp [step6] at h
  | messageFailed => simp [step6] at h
  | reply kind a =>
    simp only [step6] at h
    split_ifs at h <;> simp only [Status.running.injEq] at h <;> subst h <;> rfl
  | recvFailed =>
    simp only [step6] at h
    split_ifs at h <;> simp only [Status.running.injEq] at h <;> subst h <;> rfl

theorem loop4_port_range (str : Nat → String) (c : TraceConfig) (d : Nat) (os : List Outcome4) :
    ∀ s s', 33434 ≤ s.destPort → s.destPort ≤ 33534 →
      (loop4 str c d s os).status = .running s' →
      33434 ≤ s'.destPort ∧ s'.destPort ≤ 33534 := by
  induction os with
  | nil =>
    intro s s' h1 h2 h
    simp only [loop4, Status.running.injEq] at h
    subst h
    exact ⟨h1, h2⟩
  | cons o os ih =>
    intro s s' h1 h2 h
    simp only [loop4] at h
    cases hs : step4 str c d s o with
    | running s1 =>
      rw [hs] at h
      have hp := nextPort_eq s.destPort h1 h2
      rcases step4_port str c d s s1 o hs with ⟨_, e⟩ | ⟨_, e⟩
      · exact ih s1 s' (by omega) (by omega) h
      · exact ih s1 s' (by rw [e, hp]; split_ifs <;> omega) (by rw [e, hp]; split_ifs <;> omega) h
    | returned rs => rw [hs] at h; simp at h
    | failed e => rw [hs] at h; simp at h

theorem loop6_port_range (str : Nat → String) (c : TraceConfig) (d : Nat) (os : List Outcome6) :
    ∀ s s', 33434 ≤ s.destPort → s.destPort ≤ 33534 →
      (loop6 str c d s os).status = .running s' →
      33434 ≤ s'.destPort ∧ s'.destPort ≤ 33534 := by
  induction os with
  | nil =>
    intro s s' h1 h2 h
    simp only [loop6, Status.running.injEq] at h
    subst h
    exact ⟨h1, h2⟩
  | cons o os ih =>
    intro s s' h1 h2 h
    simp only [loop6] at h
    cases hs : step6 str c d s o with
    | running s1 =>
      rw [hs] at h
      have hp := nextPort_eq s.destPort h1 h2
      have e := step6_port str c d s s1 o hs
      exact ih s1 s' (by rw [e, hp]; split_ifs <;> omega) (by rw [e, hp]; split_ifs <;> omega) h
    | returned rs => rw [hs] at h; simp at h
    | failed e => rw [hs] at h; simp at h

theorem loop4_port_iterate (str : Nat → String) (c : TraceConfig) (d : Nat)
    (os : List Outcome4) :
    ∀ s s', Outcome4.headerTooLong ∉ os → (loop4 str c d s os).status = .running s' →
      s'.destPort = nextPort^[os.length] s.destPort := by
  induction os with
  | nil =>
    intro s s' _ h
    simp only [loop4, Status.running.injEq] at h
    subst h
    rfl
  | cons o os ih =>
    intro s s' hn h
    simp only [loop4] at h
    simp only [List.mem_cons, not_or] at hn
    cases hs : step4 str c d s o with
    | running s1 =>
      rw [hs] at h
      rcases step4_port str c d s s1 o hs with ⟨e, _⟩ | ⟨_, e⟩
      · exact absurd e.symm hn.1
      · rw [ih s1 s' hn.2 h, e, List.length_cons, Function.iterate_succ_apply]
    | returned rs => rw [hs] at h; simp at h
    | failed e => rw [hs] at h; simp at h

theorem loop6_port_iterate (str : Nat → String) (c : TraceConfig) (d : Nat)
    (os : List Outcome6) :
    ∀ s s', (loop6 str c d s os).status = .running s' →
      s'.destPort = nextPort^[os.length] s.destPort := by
  induction os with
  | nil =>
    intro s s' h
    simp only [loop6, Status.running.injEq] at h
    subst h
    rfl
  | cons o os ih =>
    intro s s' h
    simp only [loop6] at h
    cases hs : step6 str c d s o with
    | running s1 =>
      rw [hs] at h
      rw [ih s1 s' h, step6_port str c d s s1 o hs, List.length_cons,
        Function.iterate_succ_apply]
    | returned rs => rw [hs] at h; simp at h
    | failed e => rw [hs] at h; simp at h

/-- C8: in `trace4` and `trace6` the port of every probe lies in [33434, 33534]
and the first probe uses 33434. After a pass that does not end the trace the
next probe uses the next port, 33434 after 33534, whatever was received and
whether or not the TTL advanced; after 101 consecutive passes the port is the
same again, so 33434 again when counted from the first probe. The passes of
`trace4` are those the program can make: a header that parsed with
`ipHeader.Len > n` is not among them, `ipv4.ParseHeader` returning an error
for it. -/
theorem port_rotation (str : Nat → String) (c : TraceConfig) (d : Nat) :
    ((∀ os s, (trace4 str c (.v4 d) true os).status = .running s →
        33434 ≤ s.destPort ∧ s.destPort ≤ 33534) ∧
      (∀ s, (trace4 str c (.v4 d) true []).status = .running s → s.destPort = 33434) ∧
      (∀ pre o s s', o ≠ .headerTooLong →
        (trace4 str c (.v4 d) true pre).status = .running s →
        (trace4 str c (.v4 d) true (pre ++ [o])).status = .running s' →
        s'.destPort = if s.destPort = 33534 then 33434 else s.destPort + 1) ∧
      (∀ pre os s s', os.length = 101 → Outcome4.headerTooLong ∉ os →
        (trace4 str c (.v4 d) true pre).status = .running s →
        (trace4 str c (.v4 d) true (pre ++ os)).status = .running s' →
        s'.destPort = s.destPort)) ∧
    ((∀ os s, (trace6 str c (.v6 d) true os).status = .running s →
        33434 ≤ s.destPort ∧ s.destPort ≤ 33534) ∧
      (∀ s, (trace6 str c (.v6 d) true []).status = .running s → s.destPort = 33434) ∧
      (∀ pre o s s',
        (trace6 str c (.v6 d) true pre).status = .running s →
        (trace6 str c (.v6 d) true (pre ++ [o])).status = .running s' →
        s'.destPort = if s.destPort = 33534 then 33434 else s.destPort + 1) ∧
      (∀ pre os s s', os.length = 101 →
        (trace6 str c (.v6 d) true pre).status = .running s →
        (trace6 str c (.v6 d) true (pre ++ os)).status = .running s' →
        s'.destPort = s.destPort)) := by
  have r4 : ∀ os s, (trace4 str c (.v4 d) true os).status = .running s →
      33434 ≤ s.destPort ∧ s.destPort ≤ 33534 := by
    intro os s h
    obtain ⟨_, _, ht⟩ := trace4_running str c d true os s h
    rw [ht] at h
    exact loop4_port_range str _ d os _ s (by simp [initState, DesMinPort])
      (by simp [initState, DesMinPort]) h
  have r6 : ∀ os s, (trace6 str c (.v6 d) true os).status = .running s →
      33434 ≤ s.destPort ∧ s.destPort ≤ 33534 := by
    intro os s h
    obtain ⟨_, _, ht⟩ := trace6_running str c d true os s h
    rw [ht] at h
    exact loop6_port_range str _ d os _ s (by simp [initState, DesMinPort])
      (by simp [initState, DesMinPort]) h
  refine ⟨⟨r4, ?_, ?_, ?_⟩, ⟨r6, ?_, ?_, ?_⟩⟩
  · intro s h
    obtain ⟨_, _, ht⟩ := trace4_running str c d true [] s h
    rw [ht] at h
    simp only [loop4, Status.running.injEq] at h
    subst h
    rfl
  · intro pre o s s' ho h h'
    obtain ⟨h1, h2⟩ := r4 pre s h
    rw [trace4_append str c d true pre [o] s h] at h'
    have := loop4_port_iterate str c.check.1 d [o] s s' (by simpa using ho.symm) h'
    rw [this, List.length_singleton, Function.iterate_one, nextPort_eq _ h1 h2]
  · intro pre os s s' hl hn h h'
    obtain ⟨h1, h2⟩ := r4 pre s h
    rw [trace4_append str c d true pre os s h] at h'
    rw [loop4_port_iterate str c.check.1 d os s s' hn h', hl, nextPort_iterate 101 _ h1 h2]
    push_cast
    omega
  · intro s h
    obtain ⟨_, _, ht⟩ := trace6_running str c d true [] s h
    rw [ht] at h
    simp only [loop6, Status.running.injEq] at h
    subst h
    rfl
  · intro pre o s s' h h'
    obtain ⟨h1, h2⟩ := r6 pre s h
    rw [trace6_append str c d true pre [o] s h] at h'
    have := loop6_port_iterate str c.check.1 d [o] s s' h'
    rw [this, List.length_singleton, Function.iterate_one, nextPort_eq _ h1 h2]
  · intro pre os s s' hl h h'
    obtain ⟨h1, h2⟩ := r6 pre s h
    rw [trace6_append str c d true pre os s h] at h'
    rw [loop6_port_iterate str c.check.1 d os s s' h', hl, nextPort_iterate 101 _ h1 h2]
    push_cast
    omega

set_option maxRecDepth 100000 in
/-- C8 (witness): the first probe goes to 33434 and after a pass that timed out
the next probe goes to 33435; after 101 passes that each received a reply of
another type the probe goes to 33434 again. -/
theorem port_rotation_witness :
    ((trace4 (fun _ => "r") ⟨1, 0, 30, false, 1⟩ (.v4 9) true []).status =
        .running ⟨1, 0, 33434, []⟩ ∧
      (trace4 (fun _ => "r") ⟨1, 0, 30, false, 1⟩ (.v4 9) true ([] ++ [.recvFailed])).status =
        .running ⟨2, 0, 33435, [⟨1, "*", false⟩]⟩ ∧
      (33435 : Int) = if (33434 : Int) = 33534 then 33434 else 33434 + 1) ∧
    ((trace4 (fun _ => "r") ⟨1, 0, 30, false, 1⟩ (.v4 9) true
        ([] ++ List.replicate 101 (.reply .other 7))).status =
        .running ⟨1, 0, 33434, []⟩ ∧
      (33434 : Int) = 33434) :=
  ⟨⟨by decide, by decide,
      (port_rotation (fun _ => "r") ⟨1, 0, 30, false, 1⟩ 9).1.2.2.1 [] .recvFailed
        ⟨1, 0, 33434, []⟩ ⟨2, 0, 33435, [⟨1, "*", false⟩]⟩ (by decide) (by decide) (by decide)⟩,
    ⟨by decide,
      (port_rotation (fun _ => "r") ⟨1, 0, 30, false, 1⟩ 9).1.2.2.2 []
        (List.replicate 101 (.reply .other 7)) ⟨1, 0, 33434, []⟩ ⟨1, 0, 33434, []⟩
        (by decide) (by decide) (by decide) (by decide)⟩⟩

/-! ## A path of routers up to the destination -/

theorem zipWith_range_cons {β : Type} (g : Int → Nat → β) (t : Int) (n : Nat) (x : Nat)
    (xs : List Nat) :
    List.zipWith (fun (i : Nat) a => g (t + i) a) (List.range (n + 1)) (x :: xs) =
      g t x :: List.zipWith (fun (i : Nat) a => g (t + 1 + i) a) (List.range n) xs := by
  rw [List.range_succ_eq_map, List.zipWith_cons_cons, List.zipWith_map_left]
  simp only [Nat.cast_zero, add_zero, List.cons.injEq, true_and]
  congr 1
  funext i a
  congr 1
  push_cast
  ring

theorem loop4_path (str : Nat → String) (c : TraceConfig) (d : Nat) (rest : List Outcome4)
    (hmax : c.MaxTTL ≤ 64) (routers : List Nat) :
    ∀ s : LoopState, 1 ≤ s.ttl → s.ttl + routers.length ≤ c.MaxTTL → (∀ r ∈ routers, r ≠ d) →
      loop4 str c d s
          (routers.map (Outcome4.reply .timeExceeded) ++ .reply .destinationUnreachable d :: rest) =
        { status := .returned (s.results ++
            List.zipWith (fun (i : Nat) a => { TTL := s.ttl + i, NextHot := str a, Replied := true })
              (List.range (routers.length + 1)) (routers ++ [d])),
          rest := rest } := by
  induction routers with
  | nil =>
    intro s _ _ _
    simp [loop4, step4_unreachable, List.range_succ]
  | cons r routers ih =>
    intro s h1 h2 h3
    simp only [List.length_cons, Nat.cast_add, Nat.cast_one] at h2
    have hw : wrapInt (s.ttl + 1) = s.ttl + 1 := wrapInt_eq _ (by omega) (by omega)
    have hr : r ≠ d := h3 r (by simp)
    have hgt : ¬ s.ttl + 1 > c.MaxTTL := by omega
    simp only [List.map_cons, List.cons_append, loop4, step4, hw, hgt, hr, true_or, if_true,
      false_or, or_self, if_false, reduceCtorEq, List.append_eq]
    rw [ih _ (by simp only; omega) (by simp only; omega) (fun x hx => h3 x (by simp [hx]))]
    have hz := zipWith_range_cons
      (fun t a => ({ TTL := t, NextHot := str a, Replied := true } : TraceResult)) s.ttl
      (routers.length + 1) r (routers ++ [d])
    simp only at hz
    simp only [List.length_cons, List.append_assoc, List.singleton_append, hz]

/-- C5: for a configuration that passes `check`, when `trace4` receives one
time-exceeded reply from each of the routers R1..Rn, none of them the destination,
with FirstTTL + n ≤ MaxTTL, and then a destination-unreachable reply from the
destination, it returns n + 1 records: record i (from 0) has TTL FirstTTL + i,
Replied = true and the address of the i-th sender, the last sender being the
destination. -/
theorem trace4_path (str : Nat → String) (c c' : TraceConfig) (dest : Nat) (routers : List Nat)
    (hc : c.check = (c', none)) (hr : ∀ r ∈ routers, r ≠ dest)
    (hn : c'.FirstTTL + routers.length ≤ c'.MaxTTL) :
    trace4 str c (.v4 dest) true
        (routers.map (Outcome4.reply .timeExceeded) ++ [.reply .destinationUnreachable dest]) =
      { status := .returned
          (List.zipWith
            (fun (i : Nat) a => { TTL := c'.FirstTTL + i, NextHot := str a, Replied := true })
            (List.range (routers.length + 1)) (routers ++ [dest])),
        rest := [] } := by
  obtain ⟨h1, ⟨_, h2⟩, _⟩ := check_ok_bounds c c' hc
  have := loop4_path str c' dest [] h2 routers (initState c') h1 hn hr
  simp only [initState, List.nil_append] at this
  simp only [trace4, hc, if_true, initState]
  exact this

/-- The instance of the specification: destination 192.0.2.1, five routers. -/
theorem trace4_path_witness :
    (trace4 (fun a => if a = 3221225985 then "192.0.2.1" else "router")
        ⟨1, 0, 30, false, 1⟩ (.v4 3221225985) true
        ([.reply .timeExceeded 11, .reply .timeExceeded 12, .reply .timeExceeded 13,
          .reply .timeExceeded 14, .reply .timeExceeded 15] ++
          [.reply .destinationUnreachable 3221225985])).status =
      .returned [⟨1, "router", true⟩, ⟨2, "router", true⟩, ⟨3, "router", true⟩,
        ⟨4, "router", true⟩, ⟨5, "router", true⟩, ⟨6, "192.0.2.1", true⟩] :=
  congrArg Run.status
    (trace4_path (fun a => if a = 3221225985 then "192.0.2.1" else "router")
      ⟨1, 0, 30, false, 1⟩ ⟨1, 0, 30, false, 1⟩ 3221225985 [11, 12, 13, 14, 15]
      (by decide) (by decide) (by decide))

/-! ## The TTLs of a result -/

theorem ttlsAscend_cons (t t' : Int) (l : List Int) (h : TTLsAscend t' l)
    (ht : t' = t ∨ t' = t + 1) : TTLsAscend t (t :: l) := by
  cases l with
  | nil => exact ⟨rfl, trivial⟩
  | cons x xs =>
    obtain ⟨hx, hch⟩ := h
    subst hx
    exact ⟨rfl, ht, hch⟩

/-- What one pass of `trace4` does to the results and the TTL, as long as
`ttl + 1` is representable. -/
theorem step4_ttl (str : Nat → String) (c : TraceConfig) (d : Nat) (s : LoopState)
    (o : Outcome4) (h1 : 1 ≤ s.ttl) (h2 : s.ttl < 9223372036854775807) :
    (∀ s', step4 str c d s o = .running s' →
      (s'.results = s.results ∧ s'.ttl = s.ttl) ∨
      (∃ r, s'.results = s.results ++ [r] ∧ r.TTL = s.ttl ∧
        (s'.ttl = s.ttl ∨ (s'.ttl = s.ttl + 1 ∧ s'.ttl ≤ c.MaxTTL)))) ∧
    (∀ rs, step4 str c d s o = .returned rs → ∃ r, rs = s.results ++ [r] ∧ r.TTL = s.ttl) := by
  have hw : wrapInt (s.ttl + 1) = s.ttl + 1 := wrapInt_eq _ (by omega) (by omega)
  cases o with
  | sendFailed => simp [step4]
  | headerFailed => simp [step4]
  | messageFailed => simp [step4]
  | headerTooLong =>
    refine ⟨fun s' h => ?_, fun rs h => by simp [step4] at h⟩
    simp only [step4, Status.running.injEq] at h
    subst h
    exact Or.inl ⟨rfl, rfl⟩
  | reply kind a =>
    simp only [step4, hw]
    refine ⟨fun s' h => ?_, fun rs h => ?_⟩
    · split_ifs at h <;> simp only [Status.running.injEq, reduceCtorEq] at h <;> subst h
      · exact Or.inr ⟨_, rfl, rfl, Or.inr ⟨rfl, by simp only; omega⟩⟩
      · exact Or.inr ⟨_, rfl, rfl, Or.inl rfl⟩
      · exact Or.inl ⟨rfl, rfl⟩
    · split_ifs at h <;> simp only [Status.returned.injEq, reduceCtorEq] at h <;> subst h <;>
        exact ⟨_, rfl, rfl⟩
  | recvFailed =>
    simp only [step4, hw]
    refine ⟨fun s' h => ?_, fun rs h => ?_⟩
    · split_ifs at h <;> simp only [Status.running.injEq, reduceCtorEq] at h <;> subst h
      · exact Or.inr ⟨_, rfl, rfl, Or.inr ⟨rfl, by simp only; omega⟩⟩
      · exact Or.inr ⟨_, rfl, rfl, Or.inl rfl⟩
    · split_ifs at h <;> simp only [Status.returned.injEq, reduceCtorEq] at h <;> subst h <;>
        exact ⟨_, rfl, rfl⟩

/-- What one pass of `trace6` does to the results and the TTL, as long as
`ttl + 1` is representable. -/
theorem step6_ttl (str : Nat → String) (c : TraceConfig) (d : Nat) (s : LoopState)
    (o : Outcome6) (h1 : 1 ≤ s.ttl) (h2 : s.ttl < 9223372036854775807) :
    (∀ s', step6 str c d s o = .running s' →
      (s'.results = s.results ∧ s'.ttl = s.ttl) ∨
      (∃ r, s'.results = s.results ++ [r] ∧ r.TTL = s.ttl ∧
        (s'.ttl = s.ttl ∨ s'.ttl = s.ttl + 1))) ∧
    (∀ rs, step6 str c d s o = .returned rs → ∃ r, rs = s.results ++ [r] ∧ r.TTL = s.ttl) := by
  have hw : wrapInt (s.ttl + 1) = s.ttl + 1 := wrapInt_eq _ (by omega) (by omega)
  cases o with
  | sendFailed => simp [step6]
  | messageFailed => simp [step6]
  | reply kind a =>
    simp only [step6, hw]
    refine ⟨fun s' h => ?_, fun rs h => ?_⟩
    · split_ifs at h <;> simp only [Status.running.injEq, reduceCtorEq] at h <;> subst h
      · exact Or.inr ⟨_, rfl, rfl, Or.inr rfl⟩
      · exact Or.inr ⟨_, rfl, rfl, Or.inl rfl⟩
      · exact Or.inl ⟨rfl, rfl⟩
    · split_ifs at h <;> simp only [Status.returned.injEq, reduceCtorEq] at h <;> subst h <;>
        exact ⟨_, rfl, rfl⟩
  | recvFailed =>
    simp only [step6, hw]
    refine ⟨fun s' h => ?_, fun rs h => by simp at h⟩
    simp only [Status.running.injEq] at h
    subst h
    split_ifs
    · exact Or.inr ⟨_, rfl, rfl, Or.inr rfl⟩
    · exact Or.inr ⟨_, rfl, rfl, Or.inl rfl⟩

theorem loop4_ttls (str : Nat → String) (c : TraceConfig) (d : Nat) (B : Int)
    (hB : B < 9223372036854775807) (hmax : c.MaxTTL ≤ B) (os : List Outcome4) :
    ∀ s rs, 1 ≤ s.ttl → s.ttl ≤ B → (loop4 str c d s os).status = .returned rs →
      ∃ new, rs = s.results ++ new ∧ TTLsAscend s.ttl (ttls new) := by
  induction os with
  | nil => intro s rs _ _ h; simp [loop4] at h
  | cons o os ih =>
    intro s rs h1 h2 h
    obtain ⟨hrun, hret⟩ := step4_ttl str c d s o h1 (by omega)
    simp only [loop4] at h
    cases hs : step4 str c d s o with
    | running s1 =>
      rw [hs] at h
      rcases hrun s1 hs with ⟨e1, e2⟩ | ⟨r, e1, e2, e3⟩
      · obtain ⟨new, hn1, hn2⟩ := ih s1 rs (by omega) (by omega) h
        exact ⟨new, by rw [hn1, e1], by rw [← e2]; exact hn2⟩
      · obtain ⟨new, hn1, hn2⟩ := ih s1 rs (by omega) (by omega) h
        refine ⟨r :: new, by rw [hn1, e1]; simp, ?_⟩
        simp only [ttls, List.map_cons, e2]
        exact ttlsAscend_cons s.ttl s1.ttl _ hn2 (by omega)
    | returned rs1 =>
      rw [hs] at h
      simp only [Status.returned.injEq] at h
      subst h
      obtain ⟨r, e1, e2⟩ := hret rs1 hs
      exact ⟨[r], e1, by simp [ttls, TTLsAscend, TTLsFollow, e2]⟩
    | failed e => rw [hs] at h; simp at h

theorem loop6_ttls (str : Nat → String) (c : TraceConfig) (d : Nat) (os : List Outcome6) :
    ∀ s rs, 1 ≤ s.ttl → s.ttl + (os.length : Int) < 9223372036854775808 →
      (loop6 str c d s os).status = .returned rs →
      ∃ new, rs = s.results ++ new ∧ TTLsAscend s.ttl (ttls new) := by
  induction os with
  | nil => intro s rs _ _ h; simp [loop6] at h
  | cons o os ih =>
    intro s rs h1 h2 h
    simp only [List.length_cons, Nat.cast_add, Nat.cast_one] at h2
    obtain ⟨hrun, hret⟩ := step6_ttl str c d s o h1 (by omega)
    simp only [loop6] at h
    cases hs : step6 str c d s o with
    | running s1 =>
      rw [hs] at h
      rcases hrun s1 hs with ⟨e1, e2⟩ | ⟨r, e1, e2, e3⟩
      · obtain ⟨new, hn1, hn2⟩ := ih s1 rs (by omega) (by omega) h
        exact ⟨new, by rw [hn1, e1], by rw [← e2]; exact hn2⟩
      · obtain ⟨new, hn1, hn2⟩ := ih s1 rs (by omega) (by omega) h
        refine ⟨r :: new, by rw [hn1, e1]; simp, ?_⟩
        simp only [ttls, List.map_cons, e2]
        exact ttlsAscend_cons s.ttl s1.ttl _ hn2 (by omega)
    | returned rs1 =>
      rw [hs] at h
      simp only [Status.returned.injEq] at h
      subst h
      obtain ⟨r, e1, e2⟩ := hret rs1 hs
      exact ⟨[r], e1, by simp [ttls, TTLsAscend, TTLsFollow, e2]⟩
    | failed e => rw [hs] at h; simp at h

/-- What one pass of `trace4` does to the results and the TTL, wrap-around
included. -/
theorem step4_ttl_wrap (str : Nat → String) (c : TraceConfig) (d : Nat) (s : LoopState)
    (o : Outcome4) :
    (∀ s', step4 str c d s o = .running s' →
      (s'.results = s.results ∧ s'.ttl = s.ttl) ∨
      (∃ r, s'.results = s.results ++ [r] ∧ r.TTL = s.ttl ∧
        (s'.ttl = s.ttl ∨ s'.ttl = wrapInt (s.ttl + 1)))) ∧
    (∀ rs, step4 str c d s o = .returned rs → ∃ r, rs = s.results ++ [r] ∧ r.TTL = s.ttl) := by
  cases o with
  | sendFailed => simp [step4]
  | headerFailed => simp [step4]
  | messageFailed => simp [step4]
  | headerTooLong =>
    refine ⟨fun s' h => ?_, fun rs h => by simp [step4] at h⟩
    simp only [step4, Status.running.injEq] at h
    subst h
    exact Or.inl ⟨rfl, rfl⟩
  | reply kind a =>
    simp only [step4]
    refine ⟨fun s' h => ?_, fun rs h => ?_⟩
    · split_ifs at h <;> simp only [Status.running.injEq, reduceCtorEq] at h <;> subst h
      · exact Or.inr ⟨_, rfl, rfl, Or.inr rfl⟩
      · exact Or.inr ⟨_, rfl, rfl, Or.inl rfl⟩
      · exact Or.inl ⟨rfl, rfl⟩
    · split_ifs at h <;> simp only [Status.returned.injEq, reduceCtorEq] at h <;> subst h <;>
        exact ⟨_, rfl, rfl⟩
  | recvFailed =>
    simp only [step4]
    refine ⟨fun s' h => ?_, fun rs h => ?_⟩
    · split_ifs at h <;> simp only [Status.running.injEq, reduceCtorEq] at h <;> subst h
      · exact Or.inr ⟨_, rfl, rfl, Or.inr rfl⟩
      · exact Or.inr ⟨_, rfl, rfl, Or.inl rfl⟩
    · split_ifs at h <;> simp only [Status.returned.injEq, reduceCtorEq] at h <;> subst h <;>
        exact ⟨_, rfl, rfl⟩

/-- With the TTL wrapped to -2^63 the option `IP_TTL` is refused (`int32` of it
is 0), so the next pass of `trace4` can only end in the send error: the loop does
not return a result from there. -/
theorem loop4_wrapped_not_returned (str : Nat → String) (c : TraceConfig) (d : Nat)
    (s : LoopState) (os : List Outcome4) (rs : List TraceResult)
    (ht : s.ttl = -9223372036854775808) (hr : realRun4 str c d s os = true) :
    (loop4 str c d s os).status ≠ .returned rs := by
  have hacc : ipTTLAccepts s.ttl = false := by rw [ht]; decide
  cases os with
  | nil => simp [loop4]
  | cons o os =>
    simp only [realRun4, Bool.and_eq_true] at hr
    cases o with
    | sendFailed => simp [loop4, step4]
    | headerTooLong => simp [Outcome4.possible] at hr
    | headerFailed => simp [Outcome4.possible, hacc] at hr
    | messageFailed => simp [Outcome4.possible, hacc] at hr
    | recvFailed => simp [Outcome4.possible, hacc] at hr
    | reply kind a => simp [Outcome4.possible, hacc] at hr

theorem loop4_ttls_real (str : Nat → String) (c : TraceConfig) (d : Nat) (os : List Outcome4) :
    ∀ s rs, 1 ≤ s.ttl → s.ttl ≤ 9223372036854775807 → realRun4 str c d s os = true →
      (loop4 str c d s os).status = .returned rs →
      ∃ new, rs = s.results ++ new ∧ TTLsAscend s.ttl (ttls new) := by
  induction os with
  | nil => intro s rs _ _ _ h; simp [loop4] at h
  | cons o os ih =>
    intro s rs h1 h2 hr h
    obtain ⟨hrun, hret⟩ := step4_ttl_wrap str c d s o
    simp only [loop4] at h
    simp only [realRun4, Bool.and_eq_true] at hr
    cases hs : step4 str c d s o with
    | running s1 =>
      rw [hs] at h
      have hr1 : realRun4 str c d s1 os = true := by
        have := hr.2
        rw [hs] at this
        exact this
      rcases hrun s1 hs with ⟨e1, e2⟩ | ⟨r, e1, e2, e3 | e3⟩
      · obtain ⟨new, hn1, hn2⟩ := ih s1 rs (by omega) (by omega) hr1 h
        exact ⟨new, by rw [hn1, e1], by rw [← e2]; exact hn2⟩
      · obtain ⟨new, hn1, hn2⟩ := ih s1 rs (by omega) (by omega) hr1 h
        refine ⟨r :: new, by rw [hn1, e1]; simp, ?_⟩
        simp only [ttls, List.map_cons, e2]
        exact ttlsAscend_cons s.ttl s1.ttl _ hn2 (Or.inl e3)
      · by_cases hlt : s.ttl < 9223372036854775807
        · rw [wrapInt_eq _ (by omega) (by omega)] at e3
          obtain ⟨new, hn1, hn2⟩ := ih s1 rs (by omega) (by omega) hr1 h
          refine ⟨r :: new, by rw [hn1, e1]; simp, ?_⟩
          simp only [ttls, List.map_cons, e2]
          exact ttlsAscend_cons s.ttl s1.ttl _ hn2 (Or.inr e3)
        · have hmax : s.ttl = 9223372036854775807 := by omega
          rw [hmax] at e3
          have hw : s1.ttl = -9223372036854775808 := by rw [e3]; decide
          exact absurd h (loop4_wrapped_not_returned str c d s1 os rs hw hr1)
    | returned rs1 =>
      rw [hs] at h
      simp only [Status.returned.injEq] at h
      subst h
      obtain ⟨r, e1, e2⟩ := hret rs1 hs
      exact ⟨[r], e1, by simp [ttls, TTLsAscend, TTLsFollow, e2]⟩
    | failed e => rw [hs] at h; simp at h

theorem loop6_ttls_real (str : Nat → String) (c : TraceConfig) (d : Nat) (os : List Outcome6) :
    ∀ s rs, 1 ≤ s.ttl → s.ttl < 9223372036854775807 → realRun6 str c d s os = true →
      (loop6 str c d s os).status = .returned rs →
      ∃ new, rs = s.results ++ new ∧ TTLsAscend s.ttl (ttls new) := by
  induction os with
  | nil => intro s rs _ _ _ h; simp [loop6] at h
  | cons o os ih =>
    intro s rs h1 h2 hr h
    obtain ⟨hrun, hret⟩ := step6_ttl str c d s o h1 h2
    simp only [loop6] at h
    simp only [realRun6, Bool.and_eq_true] at hr
    by_cases hlast : s.ttl = 9223372036854775806
    · have hacc : hopLimitAccepts s.ttl = false := by rw [hlast]; decide
      cases o with
      | sendFailed => simp [step6] at h
      | messageFailed => simp [Outcome6.possible, hacc] at hr
      | recvFailed => simp [Outcome6.possible, hacc] at hr
      | reply kind a => simp [Outcome6.possible, hacc] at hr
    · cases hs : step6 str c d s o with
      | running s1 =>
        rw [hs] at h
        have hr1 : realRun6 str c d s1 os = true := by
          have := hr.2
          rw [hs] at this
          exact this
        rcases hrun s1 hs with ⟨e1, e2⟩ | ⟨r, e1, e2, e3⟩
        · obtain ⟨new, hn1, hn2⟩ := ih s1 rs (by omega) (by omega) hr1 h
          exact ⟨new, by rw [hn1, e1], by rw [← e2]; exact hn2⟩
        · obtain ⟨new, hn1, hn2⟩ := ih s1 rs (by omega) (by omega) hr1 h
          refine ⟨r :: new, by rw [hn1, e1]; simp, ?_⟩
          simp only [ttls, List.map_cons, e2]
          exact ttlsAscend_cons s.ttl s1.ttl _ hn2 (by omega)
      | returned rs1 =>
        rw [hs] at h
        simp only [Status.returned.injEq] at h
        subst h
        obtain ⟨r, e1, e2⟩ := hret rs1 hs
        exact ⟨[r], e1, by simp [ttls, TTLsAscend, TTLsFollow, e2]⟩
      | failed e => rw [hs] at h; simp at h

/-- C6 (counterexample): with FirstTTL = 2^63 - 1, the largest `int`, `trace6`
given a timeout and then a destination-unreachable reply returns two records
whose TTLs are 2^63 - 1 and -2^63: `ttl++` wrapped around and the second TTL is
neither the first nor one greater. The run is one the system can produce: the
hop limits passed down are `int32` of the two TTLs, -1 and 0, both accepted. -/
theorem ttl_wraps_at_max_int :
    realRun6 (fun _ => "r") ⟨9223372036854775807, 0, 30, false, 1⟩ 9
        (initState ⟨9223372036854775807, 0, 30, false, 1⟩)
        [.recvFailed, .reply .destinationUnreachable 9] = true ∧
    (trace6 (fun _ => "r") ⟨9223372036854775807, 0, 30, false, 1⟩ (.v6 9) true
        [.recvFailed, .reply .destinationUnreachable 9]).status =
      .returned [⟨9223372036854775807, "*", false⟩, ⟨-9223372036854775808, "r", true⟩] ∧
    ¬ TTLsAscend 9223372036854775807
      (ttls [⟨9223372036854775807, "*", false⟩, ⟨-9223372036854775808, "r", true⟩]) := by
  decide

/-- C6 (amended): for a configuration that passes `check` (FirstTTL being an
`int`, at most 2^63 - 1), in every result that `trace4` returns from a run the
system can produce the first record has TTL FirstTTL and every later record has
the TTL of the record before it or that TTL plus one. The same holds for every
result `trace6` returns: from any list of outcomes provided FirstTTL plus the
number of outcomes received stays below 2^63, and from every run the system can
produce provided FirstTTL is not 2^63 - 1. -/
theorem ttls_ascend (str : Nat → String) (c c' : TraceConfig) (d : Nat)
    (hc : c.check = (c', none)) :
    (c'.FirstTTL ≤ 9223372036854775807 → ∀ os rs,
      realRun4 str c' d (initState c') os = true →
      (trace4 str c (.v4 d) true os).status = .returned rs →
      TTLsAscend c'.FirstTTL (ttls rs)) ∧
    (∀ os rs, c'.FirstTTL + (List.length os : Int) < 9223372036854775808 →
      (trace6 str c (.v6 d) true os).status = .returned rs →
      TTLsAscend c'.FirstTTL (ttls rs)) ∧
    (c'.FirstTTL < 9223372036854775807 → ∀ os rs,
      realRun6 str c' d (initState c') os = true →
      (trace6 str c (.v6 d) true os).status = .returned rs →
      TTLsAscend c'.FirstTTL (ttls rs)) := by
  obtain ⟨h1, ⟨_, h2⟩, _⟩ := check_ok_bounds c c' hc
  refine ⟨?_, ?_, ?_⟩
  · intro hf os rs hreal h
    simp only [trace4, hc, if_true] at h
    obtain ⟨new, e, hasc⟩ := loop4_ttls_real str c' d os (initState c') rs h1 hf hreal h
    simp only [initState, List.nil_append] at e hasc
    rw [e]
    exact hasc
  · intro os rs hf h
    simp only [trace6, hc, if_true] at h
    obtain ⟨new, e, hasc⟩ := loop6_ttls str c' d os (initState c') rs h1 hf h
    simp only [initState, List.nil_append] at e hasc
    rw [e]
    exact hasc
  · intro hf os rs hreal h
    simp only [trace6, hc, if_true] at h
    obtain ⟨new, e, hasc⟩ := loop6_ttls_real str c' d os (initState c') rs h1 hf hreal h
    simp only [initState, List.nil_append] at e hasc
    rw [e]
    exact hasc

/-- C6 (witness): FirstTTL = 0 is checked into 1; a time-exceeded reply, a
timeout, a reply of another type, a timeout and a destination-unreachable reply
give the TTLs 1, 2, 2, 2. -/
theorem ttls_ascend_witness :
    TTLsAscend 1 (ttls [⟨1, "r", true⟩, ⟨2, "*", false⟩, ⟨2, "*", false⟩, ⟨2, "r", true⟩]) :=
  (ttls_ascend (fun _ => "r") ⟨0, 1, 30, false, 1⟩ ⟨1, 1, 30, false, 1⟩ 9 (by decide)).1
    (by decide)
    [.reply .timeExceeded 5, .recvFailed, .reply .other 4, .recvFailed,
      .reply .destinationUnreachable 9]
    [⟨1, "r", true⟩, ⟨2, "*", false⟩, ⟨2, "*", false⟩, ⟨2, "r", true⟩] (by decide) (by decide)

/-! ## Replies from the destination itself -/

theorem step4_from_destination (str : Nat → String) (c : TraceConfig) (d : Nat) (s : LoopState)
    (kind : ICMPKind) (hk : kind ≠ .other) :
    step4 str c d s (.reply kind d) =
      .returned (s.results ++ [{ TTL := s.ttl, NextHot := str d, Replied := true }]) := by
  cases kind with
  | timeExceeded => simp [step4]
  | destinationUnreachable => simp [step4]
  | other => exact absurd rfl hk

theorem step6_from_destination (str : Nat → String) (c : TraceConfig) (d : Nat) (s : LoopState)
    (kind : ICMPKind) (hk : kind ≠ .other) :
    step6 str c d s (.reply kind d) =
      .returned (s.results ++ [{ TTL := s.ttl, NextHot := str d, Replied := true }]) := by
  cases kind with
  | timeExceeded => simp [step6]
  | destinationUnreachable => simp [step6]
  | other => exact absurd rfl hk

/-- C11 (counterexample): a parsed reply of another type whose sender is the
destination (address 9) does not end `trace4` or `trace6`: the loop is still
running, with the port moved on for the next probe, and the next outcome, a
timeout, is consumed by that next probe. -/
theorem other_reply_from_destination_continues :
    (trace4 (fun _ => "r") ⟨1, 0, 30, false, 1⟩ (.v4 9) true [.reply .other 9]).status =
      .running ⟨1, 0, 33435, []⟩ ∧
    (trace6 (fun _ => "r") ⟨1, 0, 30, false, 1⟩ (.v6 9) true [.reply .other 9]).status =
      .running ⟨1, 0, 33435, []⟩ ∧
    (trace4 (fun _ => "r") ⟨1, 0, 30, false, 1⟩ (.v4 9) true
        [.reply .other 9, .recvFailed]).status =
      .running ⟨2, 0, 33436, [⟨1, "*", false⟩]⟩ ∧
    (trace6 (fun _ => "r") ⟨1, 0, 30, false, 1⟩ (.v6 9) true
        [.reply .other 9, .recvFailed]).status =
      .running ⟨2, 0, 33436, [⟨1, "*", false⟩]⟩ := by
  decide

/-- C11 (amended): whatever was received before, when a call of `trace4` or
`trace6` that is in its loop with loop variables `s` receives a parsed reply of
type time-exceeded or destination-unreachable whose sender is the destination,
it returns in that pass: the results so far followed by one record with
Replied = true, the destination's address and the TTL of `s`; none of the outcomes
`os` that come after is consumed, so no further probe is sent. -/
theorem reply_from_destination_returns (str : Nat → String) (c : TraceConfig) (d : Nat)
    (s : LoopState) (kind : ICMPKind) (hk : kind ≠ .other) :
    (∀ (pre os : List Outcome4), (trace4 str c (.v4 d) true pre).status = .running s →
      trace4 str c (.v4 d) true (pre ++ .reply kind d :: os) =
        { status := .returned
            (s.results ++ [{ TTL := s.ttl, NextHot := str d, Replied := true }]),
          rest := os }) ∧
    (∀ (pre os : List Outcome6), (trace6 str c (.v6 d) true pre).status = .running s →
      trace6 str c (.v6 d) true (pre ++ .reply kind d :: os) =
        { status := .returned
            (s.results ++ [{ TTL := s.ttl, NextHot := str d, Replied := true }]),
          rest := os }) := by
  constructor
  · intro pre os h
    rw [trace4_append str c d true pre _ s h]
    simp [loop4, step4_from_destination str _ d s kind hk]
  · intro pre os h
    rw [trace6_append str c d true pre _ s h]
    simp [loop6, step6_from_destination str _ d s kind hk]

/-- C11 (witness): after a time-exceeded reply from a router and one timeout, a
time-exceeded reply from the destination (address 9) at TTL 3, far below
MaxTTL = 30, makes `trace4` return; the two outcomes after it stay unconsumed. -/
theorem reply_from_destination_returns_witness :
    trace4 (fun _ => "r") ⟨1, 0, 30, false, 1⟩ (.v4 9) true
        ([.reply .timeExceeded 5, .recvFailed] ++
          .reply .timeExceeded 9 :: [.recvFailed, .reply .timeExceeded 7]) =
      { status := .returned
          ([⟨1, "r", true⟩, ⟨2, "*", false⟩] ++ [{ TTL := 3, NextHot := "r", Replied := true }]),
        rest := [.recvFailed, .reply .timeExceeded 7] } :=
  (reply_from_destination_returns (fun _ => "r") ⟨1, 0, 30, false, 1⟩ 9
    ⟨3, 0, 33436, [⟨1, "r", true⟩, ⟨2, "*", false⟩]⟩ .timeExceeded (by decide)).1
    [.reply .timeExceeded 5, .recvFailed] [.recvFailed, .reply .timeExceeded 7] (by decide)

end Traceroute
